import Mathlib

/-!
Verification of the Rhasspy voice-pipeline orchestration core against its
specification.  The repository ships configuration data (the adapt intent
configuration, the default profile JSON, the wake-word documentation); the
runtime components themselves are modelled from the specification and checked
against that shipped data.
-/

set_option maxHeartbeats 1000000
set_option maxRecDepth 8000

namespace Rhasspy

/-- An intent declaration as it appears in profiles/en/adapt_config.json:
a name, a list of required keyword groups, and a list of optional keyword
groups. -/
structure IntentDef where
  name : String
  require : List String
  optionally : List String
  deriving DecidableEq

/-- The entity keyword lists of profiles/en/adapt_config.json, mapping a
keyword-group name to its member phrases. -/
def entities : String → List String
  | "GetGarageStateRequiredKeyword" => ["door", "garage"]
  | "GetGarageStateOptionalKeyword" => ["closed", "open"]
  | "ChangeLightState.state" => ["off", "on"]
  | "ChangeLightState.name" => ["bedroom light", "garage light", "living room lamp"]
  | "ChangeLightStateRequiredKeyword" => ["turn"]
  | "GetTimeRequiredKeyword" => ["time"]
  | "GetTimeOptionalKeyword" => ["tell", "what"]
  | "GetTemperatureOptionalKeyword" => ["cold", "whats", "hot", "temperature"]
  | "ChangeLightColor.name" => ["bedroom light"]
  | "ChangeLightColor.color" => ["blue", "green", "red"]
  | "ChangeLightColorOptionalKeyword" => ["make", "set"]
  | _ => []

/-- The GetGarageState intent of profiles/en/adapt_config.json. -/
def GetGarageState : IntentDef :=
  ⟨"GetGarageState", ["GetGarageStateRequiredKeyword"], ["GetGarageStateOptionalKeyword"]⟩

/-- The ChangeLightState intent of profiles/en/adapt_config.json. -/
def ChangeLightState : IntentDef :=
  ⟨"ChangeLightState",
   ["ChangeLightStateRequiredKeyword", "ChangeLightState.state", "ChangeLightState.name"],
   []⟩

/-- The GetTime intent of profiles/en/adapt_config.json. -/
def GetTime : IntentDef :=
  ⟨"GetTime", ["GetTimeRequiredKeyword"], ["GetTimeOptionalKeyword"]⟩

/-- The GetTemperature intent of profiles/en/adapt_config.json; its required
keyword-group list is empty. -/
def GetTemperature : IntentDef :=
  ⟨"GetTemperature", [], ["GetTemperatureOptionalKeyword"]⟩

/-- The ChangeLightColor intent of profiles/en/adapt_config.json. -/
def ChangeLightColor : IntentDef :=
  ⟨"ChangeLightColor",
   ["ChangeLightColor.name", "ChangeLightColor.color"],
   ["ChangeLightColorOptionalKeyword"]⟩

/-- The intents of profiles/en/adapt_config.json, in declaration order. -/
def adaptIntents : List IntentDef :=
  [GetGarageState, ChangeLightState, GetTime, GetTemperature, ChangeLightColor]

/-- Split a character list at every occurrence of the separator character. -/
def splitChar (sep : Char) : List Char → List Char → List (List Char)
  | [], acc => [acc.reverse]
  | c :: cs, acc =>
    if c = sep then acc.reverse :: splitChar sep cs [] else splitChar sep cs (c :: acc)

/-- Split a sentence into its whitespace-separated word tokens. -/
def tokenize (s : String) : List String :=
  (splitChar (' ') s.toList []).filterMap
    (fun w => if w.isEmpty then none else some (String.mk w))

/-- Whether the first token list is a leading segment of the second. -/
def listStarts : List String → List String → Bool
  | [], _ => true
  | _ :: _, [] => false
  | p :: ps, t :: ts => p == t && listStarts ps ts

/-- Whether the token list pat occurs contiguously inside the token list. -/
def hasPhrase (pat : List String) : List String → Bool
  | [] => listStarts pat []
  | t :: ts => listStarts pat (t :: ts) || hasPhrase pat ts

/-- Whether an entity phrase is present in the tokenized input text. -/
def entityPresent (text : List String) (e : String) : Bool :=
  hasPhrase (tokenize e) text

/-- Modelled from the spec: the slot-and-keyword matcher fills slot values
from matched terms; the first member of a keyword group found in the text. -/
def groupMatch (text : List String) (g : String) : Option String :=
  (entities g).find? (entityPresent text)

/-- Modelled from the spec: an intent is a match candidate only if every
required keyword group has at least one member present in the text. -/
def requireSat (text : List String) (i : IntentDef) : Bool :=
  i.require.all (fun g => (groupMatch text g).isSome)

/-- Modelled from the spec: the number of optional keywords of an intent that
are not present in the text (used for most-specific-match tie breaking). -/
def unmatchedOptional (text : List String) (i : IntentDef) : Nat :=
  ((i.optionally.map entities).flatten).countP (fun e => !entityPresent text e)

/-- Modelled from the spec: among competing candidate intents, prefer the one
with the fewest unmatched optional keywords; ties keep the earlier-declared
intent (first-declared-wins default). -/
def pickBest (text : List String) : List IntentDef → Option IntentDef
  | [] => none
  | i :: is =>
    match pickBest text is with
    | none => some i
    | some j => if unmatchedOptional text j < unmatchedOptional text i then some j else some i

/-- A keyword group of the form Intent.slot names a slot; return the slot
name. -/
def slotOfGroup (g : String) : Option String :=
  match (splitChar ('.') g.toList []).map String.mk with
  | [_, slot] => some slot
  | _ => none

/-- A structured intent: name, slot assignments and the raw input text. -/
structure RecognizedIntent where
  name : String
  slots : List (String × String)
  text : String
  deriving DecidableEq

/-- Modelled from the spec: slot values of an intent are filled from the
matched terms of its slot-named keyword groups. -/
def fillSlots (text : List String) (i : IntentDef) : List (String × String) :=
  (i.require ++ i.optionally).filterMap (fun g =>
    match slotOfGroup g, groupMatch text g with
    | some slot, some v => some (slot, v)
    | _, _ => none)

/-- Modelled from the spec: the slot-and-keyword intent matcher (the adapt
engine, whose implementation is not part of the shipped material).  An intent
matches only if every required keyword group has at least one member present
in the text; among the matching intents the one with the fewest unmatched
optional keywords is returned; none matching yields NoIntentMatched,
represented by the value none. -/
def recognize (cfg : List IntentDef) (s : String) : Option RecognizedIntent :=
  match pickBest (tokenize s) (cfg.filter (fun i => requireSat (tokenize s) i)) with
  | none => none
  | some i => some ⟨i.name, fillSlots (tokenize s) i, s⟩

theorem pickBest_eq_none (t : List String) (l : List IntentDef) :
    pickBest t l = none ↔ l = [] := by
  cases l with
  | nil => simp [pickBest]
  | cons a as =>
    simp only [pickBest]
    cases hb : pickBest t as with
    | none => simp
    | some j =>
      constructor
      · intro h
        by_cases hc : unmatchedOptional t j < unmatchedOptional t a <;> simp [hc] at h
      · intro h
        exact absurd h (List.cons_ne_nil a as)

theorem pickBest_mem (t : List String) (l : List IntentDef) (i : IntentDef)
    (h : pickBest t l = some i) : i ∈ l := by
  induction l with
  | nil => simp [pickBest] at h
  | cons a as ih =>
    simp only [pickBest] at h
    cases hb : pickBest t as with
    | none =>
      rw [hb] at h
      simp only [Option.some.injEq] at h
      subst h
      exact List.mem_cons_self a as
    | some j =>
      rw [hb] at h
      by_cases hc : unmatchedOptional t j < unmatchedOptional t a
      · simp only [hc, if_true, Option.some.injEq] at h
        subst h
        exact List.mem_cons_of_mem a (ih hb)
      · simp only [hc, if_false, Option.some.injEq] at h
        subst h
        exact List.mem_cons_self a as

theorem pickBest_min (t : List String) (l : List IntentDef) (i : IntentDef)
    (h : pickBest t l = some i) :
    ∀ j ∈ l, unmatchedOptional t i ≤ unmatchedOptional t j := by
  induction l generalizing i with
  | nil => simp [pickBest] at h
  | cons a as ih =>
    intro j hj
    simp only [pickBest] at h
    cases hb : pickBest t as with
    | none =>
      rw [hb] at h
      simp only [Option.some.injEq] at h
      subst h
      have has : as = [] := (pickBest_eq_none t as).mp hb
      subst has
      rcases List.mem_singleton.mp hj with rfl
      exact Nat.le_refl _
    | some k =>
      rw [hb] at h
      have hk := ih k hb
      by_cases hc : unmatchedOptional t k < unmatchedOptional t a
      · simp only [hc, if_true, Option.some.injEq] at h
        subst h
        rcases List.mem_cons.mp hj with rfl | hj2
        · exact Nat.le_of_lt hc
        · exact hk j hj2
      · simp only [hc, if_false, Option.some.injEq] at h
        subst h
        have hak : unmatchedOptional t a ≤ unmatchedOptional t k := Nat.le_of_not_lt hc
        rcases List.mem_cons.mp hj with rfl | hj2
        · exact Nat.le_refl _
        · exact Nat.le_trans hak (hk j hj2)

/-- C1: with the matcher configured with the shipped ChangeLightState intent
(required keyword group turn, slot groups state and name as in
profiles/en/adapt_config.json), the input turn on the bedroom light is
recognized as ChangeLightState with slots state = on and name = bedroom
light, while the input bedroom light alone (missing the required keyword)
yields NoIntentMatched (none). -/
theorem changeLightState_recognize_spec :
    recognize [ChangeLightState] ("turn on the bedroom light") =
      some ⟨"ChangeLightState", [("state", "on"), ("name", "bedroom light")],
            "turn on the bedroom light"⟩ ∧
    recognize [ChangeLightState] ("bedroom light") = none := by
  constructor <;> decide

/-- C2: for every input text and every declared intent, the intent is a match
candidate (requireSat) iff each of its required keyword groups has a member
present in the text; and whenever recognize returns an intent, that intent is
a candidate from the configuration whose unmatched-optional-keyword count is
minimal among all candidates. -/
theorem recognize_candidates_and_specificity (cfg : List IntentDef) (s : String) :
    (∀ i ∈ cfg, requireSat (tokenize s) i = true ↔
      ∀ g ∈ i.require, ∃ e ∈ entities g, entityPresent (tokenize s) e = true) ∧
    (∀ r, recognize cfg s = some r →
      ∃ i ∈ cfg, requireSat (tokenize s) i = true ∧ r.name = i.name ∧
        ∀ j ∈ cfg, requireSat (tokenize s) j = true →
          unmatchedOptional (tokenize s) i ≤ unmatchedOptional (tokenize s) j) := by
  constructor
  · intro i _
    simp [requireSat, groupMatch, List.all_eq_true, List.find?_isSome]
  · intro r h
    unfold recognize at h
    cases hp : pickBest (tokenize s) (cfg.filter (fun i => requireSat (tokenize s) i)) with
    | none => rw [hp] at h; exact absurd h (by simp)
    | some i =>
      rw [hp] at h
      simp only [Option.some.injEq] at h
      have hmem := pickBest_mem _ _ _ hp
      have hmin := pickBest_min _ _ _ hp
      rcases List.mem_filter.mp hmem with ⟨hicfg, hisat⟩
      refine ⟨i, hicfg, hisat, ?_, ?_⟩
      · rw [← h]
      · intro j hjcfg hjsat
        exact hmin j (List.mem_filter.mpr ⟨hjcfg, hjsat⟩)

/-- Witness for C2 at the shipped configuration and a concrete input. -/
theorem recognize_candidates_and_specificity_witness :
    (∀ i ∈ adaptIntents, requireSat (tokenize ("turn on the bedroom light")) i = true ↔
      ∀ g ∈ i.require, ∃ e ∈ entities g,
        entityPresent (tokenize ("turn on the bedroom light")) e = true) ∧
    (∀ r, recognize adaptIntents ("turn on the bedroom light") = some r →
      ∃ i ∈ adaptIntents, requireSat (tokenize ("turn on the bedroom light")) i = true ∧
        r.name = i.name ∧
        ∀ j ∈ adaptIntents, requireSat (tokenize ("turn on the bedroom light")) j = true →
          unmatchedOptional (tokenize ("turn on the bedroom light")) i ≤
            unmatchedOptional (tokenize ("turn on the bedroom light")) j) :=
  recognize_candidates_and_specificity adaptIntents ("turn on the bedroom light")

/-- C10: in the shipped adapt configuration the GetTemperature intent has an
empty required-keyword list, so the required-keyword condition holds for it
vacuously on every input, and recognize never returns NoIntentMatched on the
shipped configuration. -/
theorem getTemperature_vacuous_candidate (s : String) :
    GetTemperature.require = [] ∧
    GetTemperature ∈ adaptIntents ∧
    requireSat (tokenize s) GetTemperature = true ∧
    recognize adaptIntents s ≠ none := by
  refine ⟨rfl, by decide, rfl, ?_⟩
  intro h
  unfold recognize at h
  cases hp : pickBest (tokenize s)
      (adaptIntents.filter (fun i => requireSat (tokenize s) i)) with
  | some i => rw [hp] at h; exact absurd h (by simp)
  | none =>
    have hnil := (pickBest_eq_none _ _).mp hp
    have hmem : GetTemperature ∈
        adaptIntents.filter (fun i => requireSat (tokenize s) i) :=
      List.mem_filter.mpr ⟨by decide, rfl⟩
    rw [hnil] at hmem
    exact absurd hmem (List.not_mem_nil _)

/-- Witness for C10 at a concrete input. -/
theorem getTemperature_vacuous_candidate_witness :
    GetTemperature.require = [] ∧
    GetTemperature ∈ adaptIntents ∧
    requireSat (tokenize ("bedroom light")) GetTemperature = true ∧
    recognize adaptIntents ("bedroom light") ≠ none :=
  getTemperature_vacuous_candidate ("bedroom light")

/-- Segment events emitted by the voice-activity segmenter. -/
inductive SegmentEvent
  | noEvent
  | speechStart
  | speechContinue
  | speechEnd
  | timeout
  deriving DecidableEq

/-- Modelled from the spec: the VoiceActivitySegmenter thresholds (the
webrtcvad command implementation is not part of the shipped material), with
the configured durations already converted to frame counts from the frame
duration. -/
structure SegConfig where
  speechBuffers : Nat
  throwawayBuffers : Nat
  silenceFrames : Nat
  minFrames : Nat
  timeoutFrames : Nat
  deriving DecidableEq

/-- Modelled from the spec: the segmenter state; a speech flag, the debounce
count of consecutive voiced frames before speech, the count of consecutive
unvoiced frames during speech, frames elapsed since SpeechStart, and total
frames elapsed. -/
structure SegState where
  inSpeech : Bool
  voicedRun : Nat
  silenceRun : Nat
  speechFrames : Nat
  totalFrames : Nat
  deriving DecidableEq

/-- The segmenter state before any frame is processed. -/
def initSegState : SegState := ⟨false, 0, 0, 0, 0⟩

/-- Modelled from the spec: process one frame already classified as
voiced/unvoiced.  Exceeding timeoutFrames emits Timeout unconditionally,
overriding any other pending event; before speech, speechBuffers consecutive
voiced frames are required for SpeechStart; during speech, silenceFrames
consecutive unvoiced frames emit SpeechEnd, suppressed while the elapsed
speech duration is below minFrames. -/
def processFrame (cfg : SegConfig) (st : SegState) (voiced : Bool) :
    SegState × SegmentEvent :=
  if cfg.timeoutFrames < st.totalFrames + 1 then
    ({ st with totalFrames := st.totalFrames + 1 }, SegmentEvent.timeout)
  else if st.inSpeech then
    if voiced then
      ({ st with totalFrames := st.totalFrames + 1, speechFrames := st.speechFrames + 1,
                 silenceRun := 0 }, SegmentEvent.speechContinue)
    else if cfg.silenceFrames ≤ st.silenceRun + 1 ∧ cfg.minFrames ≤ st.speechFrames + 1 then
      ({ st with totalFrames := st.totalFrames + 1, speechFrames := st.speechFrames + 1,
                 silenceRun := st.silenceRun + 1, inSpeech := false }, SegmentEvent.speechEnd)
    else
      ({ st with totalFrames := st.totalFrames + 1, speechFrames := st.speechFrames + 1,
                 silenceRun := st.silenceRun + 1 }, SegmentEvent.speechContinue)
  else if voiced then
    if cfg.speechBuffers ≤ st.voicedRun + 1 then
      ({ st with totalFrames := st.totalFrames + 1, inSpeech := true,
                 voicedRun := st.voicedRun + 1, speechFrames := 1, silenceRun := 0 },
       SegmentEvent.speechStart)
    else
      ({ st with totalFrames := st.totalFrames + 1, voicedRun := st.voicedRun + 1 },
       SegmentEvent.noEvent)
  else
    ({ st with totalFrames := st.totalFrames + 1, voicedRun := 0 }, SegmentEvent.noEvent)

/-- Process a sequence of classified frames, collecting the emitted events. -/
def processTrace (cfg : SegConfig) : SegState → List Bool → SegState × List SegmentEvent
  | st, [] => (st, [])
  | st, f :: fs =>
    ((processTrace cfg (processFrame cfg st f).1 fs).1,
     (processFrame cfg st f).2 :: (processTrace cfg (processFrame cfg st f).1 fs).2)

/-- The duration in milliseconds of one classified frame of the shipped
default profile (chunk_size 960 bytes of 16-bit audio at 16000 Hz). -/
def frameMs : Nat := 960 * 1000 / (16000 * 2)

/-- The webrtcvad section of the shipped default profile: speech_buffers 5,
throwaway_buffers 10, silence_sec 0.5, min_sec 2, timeout_sec 30, with the
durations converted to frame counts (rounding up). -/
def shippedSegConfig : SegConfig :=
  { speechBuffers := 5
    throwawayBuffers := 10
    silenceFrames := (500 + frameMs - 1) / frameMs
    minFrames := (2000 + frameMs - 1) / frameMs
    timeoutFrames := (30000 + frameMs - 1) / frameMs }

theorem processTrace_append (cfg : SegConfig) (st : SegState) (xs ys : List Bool) :
    processTrace cfg st (xs ++ ys) =
      ((processTrace cfg (processTrace cfg st xs).1 ys).1,
       (processTrace cfg st xs).2 ++ (processTrace cfg (processTrace cfg st xs).1 ys).2) := by
  induction xs generalizing st with
  | nil => simp [processTrace]
  | cons x xs ih => simp [processTrace, ih]

theorem processTrace_silent (cfg : SegConfig) (k : Nat) (st : SegState)
    (hns : st.inSpeech = false) (hvr : st.voicedRun = 0)
    (hto : st.totalFrames + k ≤ cfg.timeoutFrames) :
    processTrace cfg st (List.replicate k false) =
      ({ st with totalFrames := st.totalFrames + k },
       List.replicate k SegmentEvent.noEvent) := by
  induction k generalizing st with
  | zero => simp [processTrace]
  | succ k ih =>
    obtain ⟨isp, vr, sr, sf, tf⟩ := st
    simp only at hns hvr hto
    subst hns hvr
    rw [List.replicate_succ]
    simp only [processTrace]
    have hnt : ¬ cfg.timeoutFrames < tf + 1 := by omega
    rw [processFrame]
    simp only [hnt, if_false, Bool.false_eq_true, if_neg, Bool.not_eq_true]
    rw [ih ⟨false, 0, sr, sf, tf + 1⟩ rfl rfl (by simpa using by omega)]
    have harith : tf + 1 + k = tf + (k + 1) := by omega
    rw [harith]
    simp [List.replicate_succ]

theorem processTrace_voiced (cfg : SegConfig) (j : Nat) (st : SegState)
    (hns : st.inSpeech = false)
    (hlt : st.voicedRun + j < cfg.speechBuffers)
    (hto : st.totalFrames + j ≤ cfg.timeoutFrames) :
    processTrace cfg st (List.replicate j true) =
      ({ st with voicedRun := st.voicedRun + j, totalFrames := st.totalFrames + j },
       List.replicate j SegmentEvent.noEvent) := by
  induction j generalizing st with
  | zero => simp [processTrace]
  | succ j ih =>
    obtain ⟨isp, vr, sr, sf, tf⟩ := st
    simp only at hns hlt hto
    subst hns
    rw [List.replicate_succ]
    simp only [processTrace]
    have hnt : ¬ cfg.timeoutFrames < tf + 1 := by omega
    have hnb : ¬ cfg.speechBuffers ≤ vr + 1 := by omega
    rw [processFrame]
    simp only [hnt, if_false, Bool.false_eq_true, if_neg, hnb, if_true]
    rw [ih ⟨false, vr + 1, sr, sf, tf + 1⟩ rfl (by simpa using by omega)
          (by simpa using by omega)]
    have ha1 : vr + 1 + j = vr + (j + 1) := by omega
    have ha2 : tf + 1 + j = tf + (j + 1) := by omega
    rw [ha1, ha2]
    simp [List.replicate_succ]

theorem processTrace_voicedSpeech (cfg : SegConfig) (v : Nat) (st : SegState)
    (hsp : st.inSpeech = true) (hsil : st.silenceRun = 0)
    (hto : st.totalFrames + v ≤ cfg.timeoutFrames) :
    processTrace cfg st (List.replicate v true) =
      ({ st with speechFrames := st.speechFrames + v, totalFrames := st.totalFrames + v },
       List.replicate v SegmentEvent.speechContinue) := by
  induction v generalizing st with
  | zero => simp [processTrace]
  | succ v ih =>
    obtain ⟨isp, vr, sr, sf, tf⟩ := st
    simp only at hsp hsil hto
    subst hsp hsil
    rw [List.replicate_succ]
    simp only [processTrace]
    have hnt : ¬ cfg.timeoutFrames < tf + 1 := by omega
    rw [processFrame]
    simp only [hnt, if_false, if_true]
    rw [ih ⟨true, vr, 0, sf + 1, tf + 1⟩ rfl rfl (by simpa using by omega)]
    have ha1 : sf + 1 + v = sf + (v + 1) := by omega
    have ha2 : tf + 1 + v = tf + (v + 1) := by omega
    simp only [ha1, ha2]
    simp [List.replicate_succ]

theorem processTrace_silenceSuppressed (cfg : SegConfig) (s : Nat) (st : SegState)
    (hsp : st.inSpeech = true)
    (hmin : st.speechFrames + s < cfg.minFrames)
    (hto : st.totalFrames + s ≤ cfg.timeoutFrames) :
    processTrace cfg st (List.replicate s false) =
      ({ st with speechFrames := st.speechFrames + s, silenceRun := st.silenceRun + s,
                 totalFrames := st.totalFrames + s },
       List.replicate s SegmentEvent.speechContinue) := by
  induction s generalizing st with
  | zero => simp [processTrace]
  | succ s ih =>
    obtain ⟨isp, vr, sr, sf, tf⟩ := st
    simp only at hsp hmin hto
    subst hsp
    rw [List.replicate_succ]
    simp only [processTrace]
    have hnt : ¬ cfg.timeoutFrames < tf + 1 := by omega
    have hnc : ¬ (cfg.silenceFrames ≤ sr + 1 ∧ cfg.minFrames ≤ sf + 1) := by
      intro hc
      omega
    rw [processFrame]
    simp only [hnt, if_false, if_true, Bool.false_eq_true, if_neg, hnc]
    rw [ih ⟨true, vr, sr + 1, sf + 1, tf + 1⟩ rfl (by simpa using by omega)
          (by simpa using by omega)]
    have ha1 : sf + 1 + s = sf + (s + 1) := by omega
    have ha2 : sr + 1 + s = sr + (s + 1) := by omega
    have ha3 : tf + 1 + s = tf + (s + 1) := by omega
    simp only [ha1, ha2, ha3]
    simp [List.replicate_succ]

theorem processTrace_silencePartial (cfg : SegConfig) (s : Nat) (st : SegState)
    (hsp : st.inSpeech = true)
    (hlt : st.silenceRun + s < cfg.silenceFrames)
    (hto : st.totalFrames + s ≤ cfg.timeoutFrames) :
    processTrace cfg st (List.replicate s false) =
      ({ st with speechFrames := st.speechFrames + s, silenceRun := st.silenceRun + s,
                 totalFrames := st.totalFrames + s },
       List.replicate s SegmentEvent.speechContinue) := by
  induction s generalizing st with
  | zero => simp [processTrace]
  | succ s ih =>
    obtain ⟨isp, vr, sr, sf, tf⟩ := st
    simp only at hsp hlt hto
    subst hsp
    rw [List.replicate_succ]
    simp only [processTrace]
    have hnt : ¬ cfg.timeoutFrames < tf + 1 := by omega
    have hnc : ¬ (cfg.silenceFrames ≤ sr + 1 ∧ cfg.minFrames ≤ sf + 1) := by
      intro hc
      omega
    rw [processFrame]
    simp only [hnt, if_false, if_true, Bool.false_eq_true, if_neg, hnc]
    rw [ih ⟨true, vr, sr + 1, sf + 1, tf + 1⟩ rfl (by simpa using by omega)
          (by simpa using by omega)]
    have ha1 : sf + 1 + s = sf + (s + 1) := by omega
    have ha2 : sr + 1 + s = sr + (s + 1) := by omega
    have ha3 : tf + 1 + s = tf + (s + 1) := by omega
    simp only [ha1, ha2, ha3]
    simp [List.replicate_succ]

theorem processFrame_start (cfg : SegConfig) (st : SegState)
    (hns : st.inSpeech = false)
    (hnt : ¬ cfg.timeoutFrames < st.totalFrames + 1)
    (hb : cfg.speechBuffers ≤ st.voicedRun + 1) :
    processFrame cfg st true =
      ({ st with totalFrames := st.totalFrames + 1, inSpeech := true,
                 voicedRun := st.voicedRun + 1, speechFrames := 1, silenceRun := 0 },
       SegmentEvent.speechStart) := by
  obtain ⟨isp, vr, sr, sf, tf⟩ := st
  simp only at hns hnt hb
  subst hns
  rw [processFrame]
  simp [hnt, hb]

/-- C6: with configuration (throwaway_buffers, speech_buffers), feeding
throwaway_buffers silent frames followed by speech_buffers consecutive voiced
frames makes the segmenter emit exactly one SpeechStart, and no SpeechStart
before the speech_buffers-th consecutive voiced frame: the event trace is all
no-events followed by a single final SpeechStart. -/
theorem segmenter_speechStart_once (cfg : SegConfig)
    (h1 : 1 ≤ cfg.speechBuffers)
    (h2 : cfg.throwawayBuffers + cfg.speechBuffers ≤ cfg.timeoutFrames) :
    (processTrace cfg initSegState
        (List.replicate cfg.throwawayBuffers false ++
         List.replicate cfg.speechBuffers true)).2 =
      List.replicate (cfg.throwawayBuffers + (cfg.speechBuffers - 1))
          SegmentEvent.noEvent ++ [SegmentEvent.speechStart] ∧
    ((processTrace cfg initSegState
        (List.replicate cfg.throwawayBuffers false ++
         List.replicate cfg.speechBuffers true)).2).count SegmentEvent.speechStart = 1 := by
  have hsplit : List.replicate cfg.speechBuffers true =
      List.replicate (cfg.speechBuffers - 1) true ++ [true] := by
    rw [← List.replicate_succ']
    congr 1
    omega
  have e1 : processTrace cfg initSegState (List.replicate cfg.throwawayBuffers false) =
      (⟨false, 0, 0, 0, cfg.throwawayBuffers⟩,
       List.replicate cfg.throwawayBuffers SegmentEvent.noEvent) := by
    have h := processTrace_silent cfg cfg.throwawayBuffers initSegState rfl rfl
      (show 0 + cfg.throwawayBuffers ≤ cfg.timeoutFrames by omega)
    simpa [initSegState] using h
  have e2 : processTrace cfg (⟨false, 0, 0, 0, cfg.throwawayBuffers⟩ : SegState)
      (List.replicate (cfg.speechBuffers - 1) true) =
      (⟨false, cfg.speechBuffers - 1, 0, 0, cfg.throwawayBuffers + (cfg.speechBuffers - 1)⟩,
       List.replicate (cfg.speechBuffers - 1) SegmentEvent.noEvent) := by
    have h := processTrace_voiced cfg (cfg.speechBuffers - 1)
      ⟨false, 0, 0, 0, cfg.throwawayBuffers⟩ rfl
      (show 0 + (cfg.speechBuffers - 1) < cfg.speechBuffers by omega)
      (show cfg.throwawayBuffers + (cfg.speechBuffers - 1) ≤ cfg.timeoutFrames by omega)
    simpa using h
  have e3 := processFrame_start cfg
    ⟨false, cfg.speechBuffers - 1, 0, 0, cfg.throwawayBuffers + (cfg.speechBuffers - 1)⟩
    rfl
    (show ¬ cfg.timeoutFrames < cfg.throwawayBuffers + (cfg.speechBuffers - 1) + 1 by omega)
    (show cfg.speechBuffers ≤ (cfg.speechBuffers - 1) + 1 by omega)
  have etrace : (processTrace cfg initSegState
      (List.replicate cfg.throwawayBuffers false ++ List.replicate cfg.speechBuffers true)).2 =
      List.replicate (cfg.throwawayBuffers + (cfg.speechBuffers - 1))
          SegmentEvent.noEvent ++ [SegmentEvent.speechStart] := by
    rw [hsplit]
    simp only [processTrace_append, e1, e2]
    simp only [processTrace, e3]
    rw [List.replicate_add, List.append_assoc]
  refine ⟨etrace, ?_⟩
  rw [etrace]
  simp [List.count_append, List.count_replicate]

/-- Witness for C6 at the shipped webrtcvad configuration (speech_buffers 5,
throwaway_buffers 10, timeout_sec 30). -/
theorem segmenter_speechStart_once_witness :
    1 ≤ shippedSegConfig.speechBuffers ∧
    shippedSegConfig.throwawayBuffers + shippedSegConfig.speechBuffers ≤
      shippedSegConfig.timeoutFrames ∧
    ((processTrace shippedSegConfig initSegState
        (List.replicate shippedSegConfig.throwawayBuffers false ++
         List.replicate shippedSegConfig.speechBuffers true)).2 =
      List.replicate
          (shippedSegConfig.throwawayBuffers + (shippedSegConfig.speechBuffers - 1))
          SegmentEvent.noEvent ++ [SegmentEvent.speechStart] ∧
     ((processTrace shippedSegConfig initSegState
        (List.replicate shippedSegConfig.throwawayBuffers false ++
         List.replicate shippedSegConfig.speechBuffers true)).2).count
        SegmentEvent.speechStart = 1) :=
  ⟨by decide, by decide,
   segmenter_speechStart_once shippedSegConfig (by decide) (by decide)⟩

theorem processFrame_end (cfg : SegConfig) (st : SegState)
    (hsp : st.inSpeech = true)
    (hnt : ¬ cfg.timeoutFrames < st.totalFrames + 1)
    (hsc : cfg.silenceFrames ≤ st.silenceRun + 1)
    (hmn : cfg.minFrames ≤ st.speechFrames + 1) :
    processFrame cfg st false =
      ({ st with totalFrames := st.totalFrames + 1, speechFrames := st.speechFrames + 1,
                 silenceRun := st.silenceRun + 1, inSpeech := false },
       SegmentEvent.speechEnd) := by
  obtain ⟨isp, vr, sr, sf, tf⟩ := st
  simp only at hsp hnt hsc hmn
  subst hsp
  rw [processFrame]
  simp [hnt, hsc, hmn]

/-- C7: after SpeechStart, a run of silence_sec worth of consecutive unvoiced
frames does not emit SpeechEnd while the elapsed speech duration stays below
min_sec (segmentation continues); once the voiced duration reaches min_sec,
the same trailing silence run ends with SpeechEnd. -/
theorem segmenter_minSec_floor (cfg : SegConfig) (st : SegState) (v : Nat)
    (hsp : st.inSpeech = true) (hsil : st.silenceRun = 0) (hsf : st.speechFrames = 1)
    (hs1 : 1 ≤ cfg.silenceFrames)
    (hto : st.totalFrames + v + cfg.silenceFrames ≤ cfg.timeoutFrames) :
    (1 + v + cfg.silenceFrames < cfg.minFrames →
      SegmentEvent.speechEnd ∉ (processTrace cfg st
        (List.replicate v true ++ List.replicate cfg.silenceFrames false)).2) ∧
    (cfg.minFrames ≤ 1 + v →
      (processTrace cfg st
        (List.replicate v true ++ List.replicate cfg.silenceFrames false)).2 =
      List.replicate (v + (cfg.silenceFrames - 1)) SegmentEvent.speechContinue ++
        [SegmentEvent.speechEnd]) := by
  obtain ⟨isp, vr, sr, sf, tf⟩ := st
  simp only at hsp hsil hsf hto
  subst hsp hsil hsf
  have e1 : processTrace cfg (⟨true, vr, 0, 1, tf⟩ : SegState) (List.replicate v true) =
      (⟨true, vr, 0, 1 + v, tf + v⟩, List.replicate v SegmentEvent.speechContinue) := by
    have h := processTrace_voicedSpeech cfg v ⟨true, vr, 0, 1, tf⟩ rfl rfl
      (show tf + v ≤ cfg.timeoutFrames by omega)
    simpa [Nat.add_comm 1 v] using h
  constructor
  · intro hbelow
    have e2 : processTrace cfg (⟨true, vr, 0, 1 + v, tf + v⟩ : SegState)
        (List.replicate cfg.silenceFrames false) =
        (⟨true, vr, 0 + cfg.silenceFrames, 1 + v + cfg.silenceFrames,
          tf + v + cfg.silenceFrames⟩,
         List.replicate cfg.silenceFrames SegmentEvent.speechContinue) := by
      have h := processTrace_silenceSuppressed cfg cfg.silenceFrames
        ⟨true, vr, 0, 1 + v, tf + v⟩ rfl
        (show 1 + v + cfg.silenceFrames < cfg.minFrames by omega)
        (show tf + v + cfg.silenceFrames ≤ cfg.timeoutFrames by omega)
      simpa using h
    rw [processTrace_append, e1]
    simp only [e2]
    simp [List.mem_append, List.mem_replicate]
  · intro hfloor
    have hsplit : List.replicate cfg.silenceFrames false =
        List.replicate (cfg.silenceFrames - 1) false ++ [false] := by
      rw [← List.replicate_succ']
      congr 1
      omega
    have e2 : processTrace cfg (⟨true, vr, 0, 1 + v, tf + v⟩ : SegState)
        (List.replicate (cfg.silenceFrames - 1) false) =
        (⟨true, vr, cfg.silenceFrames - 1, 1 + v + (cfg.silenceFrames - 1),
          tf + v + (cfg.silenceFrames - 1)⟩,
         List.replicate (cfg.silenceFrames - 1) SegmentEvent.speechContinue) := by
      have h := processTrace_silencePartial cfg (cfg.silenceFrames - 1)
        ⟨true, vr, 0, 1 + v, tf + v⟩ rfl
        (show 0 + (cfg.silenceFrames - 1) < cfg.silenceFrames by omega)
        (show tf + v + (cfg.silenceFrames - 1) ≤ cfg.timeoutFrames by omega)
      simpa using h
    have e3 := processFrame_end cfg
      ⟨true, vr, cfg.silenceFrames - 1, 1 + v + (cfg.silenceFrames - 1),
       tf + v + (cfg.silenceFrames - 1)⟩
      rfl
      (show ¬ cfg.timeoutFrames < tf + v + (cfg.silenceFrames - 1) + 1 by omega)
      (show cfg.silenceFrames ≤ (cfg.silenceFrames - 1) + 1 by omega)
      (show cfg.minFrames ≤ 1 + v + (cfg.silenceFrames - 1) + 1 by omega)
    rw [hsplit]
    simp only [processTrace_append, e1, e2]
    simp only [processTrace, e3]
    rw [List.replicate_add, List.append_assoc]

/-- Witness for C7 at the shipped webrtcvad configuration, from the state just
after SpeechStart, with 30 voiced frames. -/
theorem segmenter_minSec_floor_witness :
    ((⟨true, 5, 0, 1, 15⟩ : SegState).inSpeech = true ∧
     (⟨true, 5, 0, 1, 15⟩ : SegState).silenceRun = 0 ∧
     (⟨true, 5, 0, 1, 15⟩ : SegState).speechFrames = 1 ∧
     1 ≤ shippedSegConfig.silenceFrames ∧
     (⟨true, 5, 0, 1, 15⟩ : SegState).totalFrames + 30 + shippedSegConfig.silenceFrames ≤
       shippedSegConfig.timeoutFrames) ∧
    ((1 + 30 + shippedSegConfig.silenceFrames < shippedSegConfig.minFrames →
      SegmentEvent.speechEnd ∉ (processTrace shippedSegConfig ⟨true, 5, 0, 1, 15⟩
        (List.replicate 30 true ++
         List.replicate shippedSegConfig.silenceFrames false)).2) ∧
     (shippedSegConfig.minFrames ≤ 1 + 30 →
      (processTrace shippedSegConfig ⟨true, 5, 0, 1, 15⟩
        (List.replicate 30 true ++
         List.replicate shippedSegConfig.silenceFrames false)).2 =
      List.replicate (30 + (shippedSegConfig.silenceFrames - 1))
          SegmentEvent.speechContinue ++ [SegmentEvent.speechEnd])) :=
  ⟨⟨rfl, rfl, rfl, by decide, by decide⟩,
   segmenter_minSec_floor shippedSegConfig ⟨true, 5, 0, 1, 15⟩ 30 rfl rfl rfl
     (by decide) (by decide)⟩

/-- An audio frame: a byte buffer with its sample rate and channel count. -/
structure AudioFrame where
  data : List Nat
  sampleRate : Nat
  channels : Nat
  deriving DecidableEq

/-- The non-idle pipeline stages of a session; Idle is represented by the
absence of a session for the site. -/
inductive Stage
  | woken
  | listening
  | transcribing
  | recognizing
  | handling
  deriving DecidableEq

/-- Modelled from the spec: the per-site SessionState (the orchestrator
implementation is not in the shipped material), created on wake, destroyed on
return to Idle; owns the buffered utterance audio. -/
structure SessionState where
  siteId : String
  stage : Stage
  startTime : Nat
  audio : List AudioFrame
  deriving DecidableEq

/-- Modelled from the spec: the orchestrator state, the list of currently
active sessions across sites. -/
structure Orch where
  sessions : List SessionState
  deriving DecidableEq

/-- Transcription failure kinds. -/
inductive TranscriptionError
  | remoteUnavailable
  | commandFailed
  | decodeFailed
  deriving DecidableEq

/-- Per-session terminal outcomes reported upward by the orchestrator. -/
inductive Outcome
  | utteranceTimeout
  | transcriptionFailed (e : TranscriptionError)
  | noIntentMatched
  | handledOk
  deriving DecidableEq

/-- Modelled from the spec: the events the orchestrator reacts to: wake
events, Hermes asr commands, audio frames, segmenter events and backend
completions. -/
inductive OrchEvent
  | wake (site : String) (now : Nat)
  | startListening (site : String)
  | audioFrame (site : String) (f : AudioFrame)
  | segment (site : String) (e : SegmentEvent)
  | stopListening (site : String)
  | transcribed (site : String) (r : Except TranscriptionError String)
  | intentResult (site : String) (r : Option RecognizedIntent)
  | handled (site : String)

/-- The active session for a site, if any. -/
def findSession (o : Orch) (site : String) : Option SessionState :=
  o.sessions.find? (fun s => s.siteId == site)

/-- Drop the session of the given site, releasing its buffered audio. -/
def removeSite (o : Orch) (site : String) : Orch :=
  ⟨o.sessions.filter (fun s => !(s.siteId == site))⟩

/-- Update the session of the given site in place. -/
def mapSite (o : Orch) (site : String) (f : SessionState → SessionState) : Orch :=
  ⟨o.sessions.map (fun s => if s.siteId == site then f s else s)⟩

/-- Move the session of a site to a new stage. -/
def setStage (o : Orch) (site : String) (st : Stage) : Orch :=
  mapSite o site (fun s => { s with stage := st })

/-- A fresh session created on a wake event. -/
def mkSession (site : String) (now : Nat) : SessionState :=
  ⟨site, Stage.woken, now, []⟩

/-- Run a site-directed handler when the site has an active session; without
one the event is a no-op. -/
def stepSession (o : Orch) (site : String)
    (k : SessionState → Orch × Option Outcome) : Orch × Option Outcome :=
  match findSession o site with
  | none => (o, none)
  | some s => k s

/-- Modelled from the spec: the orchestrator transition function (spec 4.6
and 6).  A wake event for a site with an active non-timed-out session is
ignored; stopListening cancels to Idle from any stage, discarding the
session; a segmenter Timeout ends the session with an UtteranceTimeout
outcome; per-session errors terminate only that session. -/
def step (tmo : Nat) (o : Orch) : OrchEvent → Orch × Option Outcome
  | OrchEvent.wake site now =>
    match findSession o site with
    | none => (⟨mkSession site now :: o.sessions⟩, none)
    | some s =>
      if s.startTime + tmo ≤ now then
        (⟨mkSession site now :: (removeSite o site).sessions⟩, none)
      else
        (o, none)
  | OrchEvent.startListening site =>
    stepSession o site (fun s =>
      if s.stage = Stage.woken then (setStage o site Stage.listening, none) else (o, none))
  | OrchEvent.audioFrame site f =>
    stepSession o site (fun s =>
      if s.stage = Stage.listening then
        (mapSite o site (fun t => { t with audio := t.audio ++ [f] }), none)
      else (o, none))
  | OrchEvent.segment site e =>
    stepSession o site (fun s =>
      match e with
      | SegmentEvent.speechEnd =>
        if s.stage = Stage.listening then (setStage o site Stage.transcribing, none)
        else (o, none)
      | SegmentEvent.timeout => (removeSite o site, some Outcome.utteranceTimeout)
      | _ => (o, none))
  | OrchEvent.stopListening site => (removeSite o site, none)
  | OrchEvent.transcribed site r =>
    stepSession o site (fun s =>
      if s.stage = Stage.transcribing then
        match r with
        | Except.ok _ => (setStage o site Stage.recognizing, none)
        | Except.error e => (removeSite o site, some (Outcome.transcriptionFailed e))
      else (o, none))
  | OrchEvent.intentResult site r =>
    stepSession o site (fun s =>
      if s.stage = Stage.recognizing then
        match r with
        | some _ => (setStage o site Stage.handling, none)
        | none => (removeSite o site, some Outcome.noIntentMatched)
      else (o, none))
  | OrchEvent.handled site =>
    stepSession o site (fun s =>
      if s.stage = Stage.handling then (removeSite o site, some Outcome.handledOk)
      else (o, none))

/-- The site identifiers of the active sessions, in order. -/
def sitesOf (o : Orch) : List String :=
  o.sessions.map SessionState.siteId

/-- The per-site uniqueness invariant: no two active sessions share a site
identifier. -/
def Inv (o : Orch) : Prop :=
  (sitesOf o).Nodup

/-- Orchestrator states reachable from the initial, sessionless state. -/
inductive Reachable (tmo : Nat) : Orch → Prop
  | init : Reachable tmo ⟨[]⟩
  | next (o : Orch) (e : OrchEvent) : Reachable tmo o → Reachable tmo (step tmo o e).1

theorem sitesOf_mapSite (o : Orch) (site : String) (f : SessionState → SessionState)
    (hf : ∀ s, (f s).siteId = s.siteId) :
    sitesOf (mapSite o site f) = sitesOf o := by
  obtain ⟨l⟩ := o
  unfold sitesOf mapSite
  simp only
  induction l with
  | nil => rfl
  | cons s ss ih =>
    simp only [List.map_cons, ih]
    by_cases hs : (s.siteId == site) = true
    · simp [hs, hf]
    · simp [hs]

theorem sitesOf_removeSite (o : Orch) (site : String) :
    sitesOf (removeSite o site) = (sitesOf o).filter (fun x => !(x == site)) := by
  obtain ⟨l⟩ := o
  unfold sitesOf removeSite
  simp only
  induction l with
  | nil => rfl
  | cons s ss ih =>
    by_cases hs : (s.siteId == site) = true
    · simp [List.filter_cons, hs, ih]
    · simp [List.filter_cons, hs, ih]

theorem inv_removeSite (o : Orch) (site : String) (h : Inv o) :
    Inv (removeSite o site) := by
  unfold Inv
  rw [sitesOf_removeSite]
  exact h.filter _

theorem inv_setStage (o : Orch) (site : String) (st : Stage) (h : Inv o) :
    Inv (setStage o site st) := by
  unfold Inv setStage
  rw [sitesOf_mapSite o site (fun s => { s with stage := st }) (fun s => rfl)]
  exact h

theorem findSession_none_not_mem (o : Orch) (site : String)
    (h : findSession o site = none) : site ∉ sitesOf o := by
  unfold findSession at h
  rw [List.find?_eq_none] at h
  intro hmem
  rcases List.mem_map.mp hmem with ⟨s, hs, hsid⟩
  exact h s hs (by simp [hsid])

theorem not_mem_sitesOf_removeSite (o : Orch) (site : String) :
    site ∉ sitesOf (removeSite o site) := by
  rw [sitesOf_removeSite]
  intro h
  have h2 := (List.mem_filter.mp h).2
  simp at h2

theorem findSession_removeSite (o : Orch) (site : String) :
    findSession (removeSite o site) site = none := by
  unfold findSession removeSite
  simp only
  rw [List.find?_eq_none]
  intro s hs
  have h2 := (List.mem_filter.mp hs).2
  simp at h2 ⊢
  exact h2

theorem step_preserves_inv (tmo : Nat) (o : Orch) (e : OrchEvent) (h : Inv o) :
    Inv (step tmo o e).1 := by
  cases e with
  | wake site now =>
    simp only [step]
    cases hf : findSession o site with
    | none =>
      simp only [Inv, sitesOf, List.map_cons]
      exact List.nodup_cons.mpr ⟨findSession_none_not_mem o site hf, h⟩
    | some s =>
      by_cases hts : s.startTime + tmo ≤ now
      · simp only [hts, if_true, Inv, sitesOf, List.map_cons]
        exact List.nodup_cons.mpr
          ⟨not_mem_sitesOf_removeSite o site, inv_removeSite o site h⟩
      · simp only [hts, if_false]
        exact h
  | startListening site =>
    simp only [step, stepSession]
    cases hf : findSession o site with
    | none => exact h
    | some s =>
      by_cases hst : s.stage = Stage.woken
      · simp only [hst, if_true]
        exact inv_setStage o site Stage.listening h
      · simp only [hst, if_false]
        exact h
  | audioFrame site f =>
    simp only [step, stepSession]
    cases hf : findSession o site with
    | none => exact h
    | some s =>
      by_cases hst : s.stage = Stage.listening
      · simp only [hst, if_true, Inv]
        rw [sitesOf_mapSite o site (fun t => { t with audio := t.audio ++ [f] })
              (fun t => rfl)]
        exact h
      · simp only [hst, if_false]
        exact h
  | segment site e =>
    simp only [step, stepSession]
    cases hf : findSession o site with
    | none => exact h
    | some s =>
      cases e with
      | speechEnd =>
        by_cases hst : s.stage = Stage.listening
        · simp only [hst, if_true]
          exact inv_setStage o site Stage.transcribing h
        · simp only [hst, if_false]
          exact h
      | timeout => exact inv_removeSite o site h
      | noEvent => exact h
      | speechStart => exact h
      | speechContinue => exact h
  | stopListening site =>
    exact inv_removeSite o site h
  | transcribed site r =>
    simp only [step, stepSession]
    cases hf : findSession o site with
    | none => exact h
    | some s =>
      by_cases hst : s.stage = Stage.transcribing
      · simp only [hst, if_true]
        cases r with
        | ok t => exact inv_setStage o site Stage.recognizing h
        | error e => exact inv_removeSite o site h
      · simp only [hst, if_false]
        exact h
  | intentResult site r =>
    simp only [step, stepSession]
    cases hf : findSession o site with
    | none => exact h
    | some s =>
      by_cases hst : s.stage = Stage.recognizing
      · simp only [hst, if_true]
        cases r with
        | some ri => exact inv_setStage o site Stage.handling h
        | none => exact inv_removeSite o site h
      · simp only [hst, if_false]
        exact h
  | handled site =>
    simp only [step, stepSession]
    cases hf : findSession o site with
    | none => exact h
    | some s =>
      by_cases hst : s.stage = Stage.handling
      · simp only [hst, if_true]
        exact inv_removeSite o site h
      · simp only [hst, if_false]
        exact h

theorem reachable_inv (tmo : Nat) (o : Orch) (h : Reachable tmo o) : Inv o := by
  induction h with
  | init => simp [Inv, sitesOf]
  | next o e ho ih => exact step_preserves_inv tmo o e ih

/-- C3: in every reachable orchestrator state the site identifiers of the
active sessions are pairwise distinct (at most one session per site); a
WakeEvent for a site with an active, non-timed-out session leaves the state
unchanged; a WakeEvent for a site with no active session creates a fresh
independent session, leaving every other session untouched. -/
theorem orchestrator_one_session_per_site (tmo : Nat) (o : Orch) (site : String)
    (now : Nat) (h : Reachable tmo o) :
    Inv o ∧
    (∀ s, findSession o site = some s → now < s.startTime + tmo →
      step tmo o (OrchEvent.wake site now) = (o, none)) ∧
    (findSession o site = none →
      (step tmo o (OrchEvent.wake site now)).1.sessions =
        mkSession site now :: o.sessions) := by
  refine ⟨reachable_inv tmo o h, ?_, ?_⟩
  · intro s hs hnt
    simp only [step, hs]
    have hle : ¬ s.startTime + tmo ≤ now := by omega
    simp [hle]
  · intro hn
    simp only [step, hn]

/-- Witness for C3 at the reachable state holding one session for site
default, probed with a second wake at time 1. -/
theorem orchestrator_one_session_per_site_witness :
    Inv (step 30 (⟨[]⟩ : Orch) (OrchEvent.wake ("default") 0)).1 ∧
    (∀ s, findSession (step 30 (⟨[]⟩ : Orch) (OrchEvent.wake ("default") 0)).1
        ("default") = some s →
      1 < s.startTime + 30 →
      step 30 (step 30 (⟨[]⟩ : Orch) (OrchEvent.wake ("default") 0)).1
        (OrchEvent.wake ("default") 1) =
      ((step 30 (⟨[]⟩ : Orch) (OrchEvent.wake ("default") 0)).1, none)) ∧
    (findSession (step 30 (⟨[]⟩ : Orch) (OrchEvent.wake ("default") 0)).1
        ("default") = none →
      (step 30 (step 30 (⟨[]⟩ : Orch) (OrchEvent.wake ("default") 0)).1
        (OrchEvent.wake ("default") 1)).1.sessions =
        mkSession ("default") 1 ::
          (step 30 (⟨[]⟩ : Orch) (OrchEvent.wake ("default") 0)).1.sessions) :=
  orchestrator_one_session_per_site 30 _ ("default") 1
    (Reachable.next (⟨[]⟩ : Orch) (OrchEvent.wake ("default") 0) Reachable.init)

/-- C4: for every state with an active session for a site (any non-idle
stage, in particular Transcribing), an asr/stopListening message for that
site cancels to Idle at once: the session and its buffered audio are
discarded, no outcome is emitted for it, and a transcription completion
arriving afterwards for that site is ignored. -/
theorem stopListening_cancels (tmo : Nat) (o : Orch) (site : String) (s : SessionState)
    (h : findSession o site = some s) :
    findSession (step tmo o (OrchEvent.stopListening site)).1 site = none ∧
    (step tmo o (OrchEvent.stopListening site)).1.sessions =
      o.sessions.filter (fun t => !(t.siteId == site)) ∧
    (∀ r, step tmo (step tmo o (OrchEvent.stopListening site)).1
        (OrchEvent.transcribed site r) =
      ((step tmo o (OrchEvent.stopListening site)).1, none)) := by
  refine ⟨?_, rfl, ?_⟩
  · simp only [step]
    exact findSession_removeSite o site
  · intro r
    simp only [step, stepSession, findSession_removeSite o site]

/-- Witness for C4: a session for site default in the Transcribing stage with
one buffered frame, cancelled by stopListening. -/
theorem stopListening_cancels_witness :
    findSession (step 30
        (⟨[⟨"default", Stage.transcribing, 0, [⟨[0], 16000, 1⟩]⟩]⟩ : Orch)
        (OrchEvent.stopListening ("default"))).1 ("default") = none ∧
    (step 30 (⟨[⟨"default", Stage.transcribing, 0, [⟨[0], 16000, 1⟩]⟩]⟩ : Orch)
        (OrchEvent.stopListening ("default"))).1.sessions =
      (⟨[⟨"default", Stage.transcribing, 0, [⟨[0], 16000, 1⟩]⟩]⟩ : Orch).sessions.filter
        (fun t => !(t.siteId == "default")) ∧
    (∀ r, step 30 (step 30
        (⟨[⟨"default", Stage.transcribing, 0, [⟨[0], 16000, 1⟩]⟩]⟩ : Orch)
        (OrchEvent.stopListening ("default"))).1
        (OrchEvent.transcribed ("default") r) =
      ((step 30 (⟨[⟨"default", Stage.transcribing, 0, [⟨[0], 16000, 1⟩]⟩]⟩ : Orch)
        (OrchEvent.stopListening ("default"))).1, none)) :=
  stopListening_cancels 30
    (⟨[⟨"default", Stage.transcribing, 0, [⟨[0], 16000, 1⟩]⟩]⟩ : Orch)
    ("default") ⟨"default", Stage.transcribing, 0, [⟨[0], 16000, 1⟩]⟩ (by decide)

/-- C5: once total elapsed time exceeds timeoutFrames the segmenter emits
Timeout from any state and input classification (overriding any other pending
event); the orchestrator reports it upward as an UtteranceTimeout outcome and
the session returns to Idle. -/
theorem segmenter_timeout_overrides (cfg : SegConfig) (st : SegState) (voiced : Bool)
    (hto : cfg.timeoutFrames < st.totalFrames + 1)
    (tmo : Nat) (o : Orch) (site : String) (s : SessionState)
    (hs : findSession o site = some s) :
    (processFrame cfg st voiced).2 = SegmentEvent.timeout ∧
    (step tmo o (OrchEvent.segment site SegmentEvent.timeout)).2 =
      some Outcome.utteranceTimeout ∧
    findSession (step tmo o (OrchEvent.segment site SegmentEvent.timeout)).1 site = none := by
  refine ⟨?_, ?_, ?_⟩
  · rw [processFrame]
    simp [hto]
  · simp only [step, stepSession, hs]
  · simp only [step, stepSession, hs]
    exact findSession_removeSite o site

/-- Witness for C5: the shipped timeout (30 s, 1000 frames) exceeded while in
speech with a pending silence run, for an active session at site default. -/
theorem segmenter_timeout_overrides_witness :
    shippedSegConfig.timeoutFrames <
      (⟨true, 5, 3, 40, 1000⟩ : SegState).totalFrames + 1 ∧
    ((processFrame shippedSegConfig ⟨true, 5, 3, 40, 1000⟩ false).2 =
      SegmentEvent.timeout ∧
    (step 30 (⟨[⟨"default", Stage.listening, 0, []⟩]⟩ : Orch)
        (OrchEvent.segment ("default") SegmentEvent.timeout)).2 =
      some Outcome.utteranceTimeout ∧
    findSession (step 30 (⟨[⟨"default", Stage.listening, 0, []⟩]⟩ : Orch)
        (OrchEvent.segment ("default") SegmentEvent.timeout)).1 ("default") = none) :=
  ⟨by decide,
   segmenter_timeout_overrides shippedSegConfig ⟨true, 5, 3, 40, 1000⟩ false (by decide)
     30 (⟨[⟨"default", Stage.listening, 0, []⟩]⟩ : Orch) ("default")
     ⟨"default", Stage.listening, 0, []⟩ (by decide)⟩

/-- A wake event: the site it wakes and the detection time. -/
structure WakeEvent where
  siteId : String
  time : Nat
  deriving DecidableEq

/-- Modelled from the spec: a wake listener is a pair of capabilities — a
handler for incoming audio frames and a handler for inbound bus messages
(detection time, topic, payload site), each possibly producing a WakeEvent. -/
structure WakeListener where
  onFrame : AudioFrame → Option WakeEvent
  onMessage : Nat → String → String → Option WakeEvent

/-- Modelled from the spec: one invocation of the external-command wake
backend (rhasspy.wake.CommandWakeListener, not in the shipped material): the
subprocess prints a wakeword token to its output and exits; the empty string
means no detection. -/
def commandWakeDetect (output : String) : Option String :=
  if output = "" then none else some output

/-- Modelled from the spec: the re-arm loop of the command wake backend. The
program is invoked again after every empty output; given the outputs of the
successive invocations, return how many invocations ran and the detected
token, if any. -/
def commandWakeLoop : List String → Nat × Option String
  | [] => (0, none)
  | out :: rest =>
    match commandWakeDetect out with
    | some tok => (1, some tok)
    | none => ((commandWakeLoop rest).1 + 1, (commandWakeLoop rest).2)

theorem commandWakeLoop_some_ne (l : List String) (t : String)
    (h : (commandWakeLoop l).2 = some t) : t ≠ "" := by
  induction l with
  | nil => simp [commandWakeLoop] at h
  | cons out rest ih =>
    by_cases hout : out = ""
    · subst hout
      simp only [commandWakeLoop, commandWakeDetect, if_pos rfl] at h
      exact ih h
    · simp only [commandWakeLoop, commandWakeDetect, if_neg hout,
                 Option.some.injEq] at h
      subst h
      exact hout

/-- C8: the command wake backend produces no WakeEvent on empty subprocess
output and the program is invoked again (n empty outputs mean n further
invocations before the detecting one); a detection is produced only by a
non-empty printed token. -/
theorem commandWake_empty_rearms (n : Nat) (tok : String) (h : tok ≠ "") :
    commandWakeDetect ("") = none ∧
    commandWakeLoop (List.replicate n ("") ++ [tok]) = (n + 1, some tok) ∧
    (∀ outs : List String, ∀ m t, commandWakeLoop outs = (m, some t) → t ≠ "") := by
  refine ⟨rfl, ?_, ?_⟩
  · induction n with
    | zero => simp [commandWakeLoop, commandWakeDetect, h]
    | succ n ih =>
      rw [List.replicate_succ, List.cons_append]
      simp [commandWakeLoop, commandWakeDetect, ih]
  · intro outs m t hmt
    exact commandWakeLoop_some_ne outs t (by rw [hmt])

/-- Witness for C8 with two empty outputs before the token okay rhasspy. -/
theorem commandWake_empty_rearms_witness :
    commandWakeDetect ("") = none ∧
    commandWakeLoop (List.replicate 2 ("") ++ ["okay rhasspy"]) =
      (3, some ("okay rhasspy")) ∧
    (∀ outs : List String, ∀ m t, commandWakeLoop outs = (m, some t) → t ≠ "") :=
  commandWake_empty_rearms 2 ("okay rhasspy") (by decide)

/-- Modelled from the spec and docs/wake-word.md: the topic the Hermes wake
backend subscribes to for its configured wakeword identifier. -/
def hermesTopic (wakewordId : String) : String :=
  "hermes/hotword/" ++ wakewordId ++ "/detected"

/-- Modelled from the spec: the remote-message (Hermes) wake backend
(rhasspy.wake.HermesWakeListener, not in the shipped material): an inbound
message whose topic matches the subscribed detected-topic synthesizes a
WakeEvent for the payload site. -/
def hermesOnMessage (wakewordId : String) (now : Nat) (topic payloadSite : String) :
    Option WakeEvent :=
  if topic = hermesTopic wakewordId then some ⟨payloadSite, now⟩ else none

/-- Modelled from the spec: the Hermes wake listener consumes bus messages
only; its audio-frame handler never produces anything. -/
def hermesWakeListener (wakewordId : String) : WakeListener :=
  { onFrame := fun _ => none
    onMessage := fun now topic site => hermesOnMessage wakewordId now topic site }

/-- The wake events synthesized from a list of inbound bus messages
(detection time, topic, payload site). -/
def hermesEvents (wakewordId : String) (msgs : List (Nat × String × String)) :
    List WakeEvent :=
  msgs.filterMap (fun m => hermesOnMessage wakewordId m.1 m.2.1 m.2.2)

/-- C9: an inbound message on the subscribed hotword detected topic carrying
a site identifier synthesizes exactly one WakeEvent for that site — over any
inbound message list the events are one per matching-topic message — and the
armed Hermes listener consumes no AudioFrames. -/
theorem hermesWake_message_synthesizes (wakewordId site : String) (now : Nat) :
    hermesOnMessage wakewordId now (hermesTopic wakewordId) site =
      some ⟨site, now⟩ ∧
    (∀ f : AudioFrame, (hermesWakeListener wakewordId).onFrame f = none) ∧
    (∀ msgs : List (Nat × String × String),
      (hermesEvents wakewordId msgs).length =
        msgs.countP (fun m => m.2.1 == hermesTopic wakewordId)) := by
  refine ⟨by simp [hermesOnMessage], fun f => rfl, ?_⟩
  intro msgs
  induction msgs with
  | nil => rfl
  | cons m rest ih =>
    by_cases hm : m.2.1 = hermesTopic wakewordId
    · simp [hermesEvents, hermesOnMessage, hm, List.countP_cons] at ih ⊢
      exact ih
    · simp [hermesEvents, hermesOnMessage, hm, List.countP_cons] at ih ⊢
      exact ih

/-- Witness for C9 with the shipped wakeword identifier default. -/
theorem hermesWake_message_synthesizes_witness :
    hermesOnMessage ("default") 0 (hermesTopic ("default")) ("default") =
      some ⟨"default", 0⟩ ∧
    (∀ f : AudioFrame, (hermesWakeListener ("default")).onFrame f = none) ∧
    (∀ msgs : List (Nat × String × String),
      (hermesEvents ("default") msgs).length =
        msgs.countP (fun m => m.2.1 == hermesTopic ("default"))) :=
  hermesWake_message_synthesizes ("default") ("default") 0

end Rhasspy
